import Mathlib

/-!
Verification of the bounded-concurrency retry-orchestration core of
`docker-parallel-pull`.

The development shallowly embeds the Go source:

* Durations (`time.Duration`, int64 nanoseconds) are `Int` nanoseconds.
  The float64 arithmetic in `calculateBackoffDelay` is modelled as exact
  integer arithmetic; float64 multiplication of an int64-representable
  base by a power of two is exact in the regime exercised by the program
  (attempt counts bounded by MaxRetries+1, delays compared against a
  30-second cap well below 2^53 ns).
* The Docker client is opaque: the orchestrator only observes, for each
  image and attempt number, whether `client.ImagePull` errors, whether the
  subsequent stream drain fails, or the pulled size on success.  A client
  is therefore a function `String → Int → PullOutcome`; a nil client
  pointer is `Option.none`.  Run-scoped context cancellation is visible to
  the code only through `ImagePull` returning an error (e.g. "context
  canceled"), so cancellation scenarios are particular choices of this
  outcome function.
* Error strings built with `fmt.Errorf` are modelled structurally by
  `PullError`, which records the construction site and the raw cause; the
  source renders these to text and applies `security.SanitizeErrorMessage`
  / `SanitizeLogMessage` (regex redaction of paths, credentials and IPs),
  a transformation of the text only, which no claim concerns.
* Wall-clock durations (`time.Since(startTime)`) are not modelled; the
  `duration` field of an embedded result is 0.  `ImageHash` (a sha256 hex
  of the optionally captured payload) is likewise outside every claim and
  omitted from the embedded record.
* `pullImageWithRetry` additionally returns the trace of externally
  visible effects (each `ImagePull` invocation and each `time.Sleep`
  between retries), so that claims about "never invokes the pull" or
  "sleeps the full backoff" are statements about the trace.
* `PullImages` spawns one goroutine per image, each producing exactly one
  result; results are gathered from a channel in completion order.  The
  embedded `PullImages` returns the per-image results in input order;
  no claim concerns the ordering of the returned slice.
* The semaphore (`make(chan struct{}, config.MaxConcurrency)`) and the
  worker goroutines are modelled as a transition system `GateStep`:
  admission of a worker is enabled only while fewer than L workers are
  running (a send on a full buffered channel blocks), and a worker's
  termination atomically releases its slot (the deferred receive runs on
  every exit path of the goroutine body).
-/

namespace DockerParallelPull

/-- Configuration record, from `internal/config/config.go` (`Config`).
Durations are `Int` nanoseconds; integer fields keep Go's `int` as `Int`. -/
structure Config where
  containerFile : String
  cleanupAfterTest : Bool
  showPullDetail : Bool
  maxConcurrency : Int
  timeout : Int
  maxRetries : Int
  retryDelay : Int
  showProgress : Bool
  outputFormat : String
deriving DecidableEq, Repr

/-- Outcome of one `client.ImagePull` invocation together with the drain of
its stream, as observed by `pullImageWithRetry` (part_002): the call itself
errors, or the stream read/copy errors, or everything succeeds with a byte
count. -/
inductive PullOutcome where
  | pullFailed (cause : String)
  | readFailed (cause : String)
  | pulled (size : Int)
deriving DecidableEq, Repr

/-- The opaque Docker client: per image name and attempt number, the outcome
of that attempt's `ImagePull` and stream drain. -/
def DockerClient : Type := String → Int → PullOutcome

/-- Structural rendering of the error stored in `PullResult.Error`.  Each
constructor is one `fmt.Errorf`/literal site in `pullImageWithRetry`; the
source renders it to text and sanitizes it. -/
inductive PullError where
  | clientNil
  | configNil
  | invalidName (msg : String)
  | attemptFailed (attempt : Int) (cause : String)
  | streamReadFailed (detailMode : Bool) (cause : String)
deriving DecidableEq, Repr

/-- Embedding of `types.PullResult` (internal/types).  `error = none` mirrors the empty
`Error` string; `duration` is 0 (wall clock not modelled); the `ImageHash`
field is omitted (see file header). -/
structure PullResult where
  image : String
  success : Bool
  error : Option PullError
  duration : Int
  attempts : Int
  size : Int
deriving DecidableEq, Repr

/-- Externally visible effects of `pullImageWithRetry`: one `pullCall a` per
`client.ImagePull` invocation with attempt counter `a`, and one `sleep d`
per `time.Sleep(d)` executed between retries. -/
inductive Event where
  | pullCall (attempt : Int)
  | sleep (delay : Int)
deriving DecidableEq, Repr

/-- Embedding of `types.PullMetrics` (internal/types). -/
structure PullMetrics where
  totalImages : Int
  successCount : Int
  failureCount : Int
  totalDuration : Int
  averageDuration : Int
  totalRetries : Int
  concurrency : Int
deriving DecidableEq, Repr

/-! ## Security validation (internal/security, `ValidateImageName`) -/

/-- Character class `[a-zA-Z0-9]` of the validation regexes. -/
def isAlnum (c : Char) : Bool :=
  ('a' ≤ c && c ≤ 'z') || ('A' ≤ c && c ≤ 'Z') || ('0' ≤ c && c ≤ '9')

/-- Interior character class of `validImageNameRegex`: alphanumerics, dot,
underscore, slash, dash. -/
def isNamePartChar (c : Char) : Bool :=
  isAlnum c || c = '.' || c = '_' || c = '/' || c = '-'

/-- Character class `[a-zA-Z0-9._-]` of `validTagRegex`. -/
def isTagChar (c : Char) : Bool :=
  isAlnum c || c = '.' || c = '_' || c = '-'

/-- Full match of `validImageNameRegex` (anchored: an alphanumeric, then any
number of interior-class characters, then an alphanumeric): at least two
characters, alphanumeric first and last, interior characters in the class of
`isNamePartChar`. -/
def matchesNamePartRegex (cs : List Char) : Bool :=
  match cs with
  | [] => false
  | [_] => false
  | c :: rest => isAlnum c && isAlnum (rest.getLastD c) && rest.dropLast.all isNamePartChar

/-- Full match of `validTagRegex = ^[a-zA-Z0-9._-]+$`. -/
def matchesTagRegex (cs : List Char) : Bool :=
  !cs.isEmpty && cs.all isTagChar

/-- Embedding of `strings.Split` for a single-character separator (the source splits on
":" and "/"); splitting the empty string yields one empty field. -/
def splitOnChar (sep : Char) : List Char → List (List Char)
  | [] => [[]]
  | c :: rest =>
    let r := splitOnChar sep rest
    if c = sep then [] :: r
    else
      match r with
      | [] => [[c]]
      | g :: gs => (c :: g) :: gs

/-- The characters rejected by `strings.ContainsAny(imageName, "$\x60;&|<>()\x7b\x7d[]")`. -/
def suspiciousChars : String := "$\x60;&|<>()\x7b\x7d[]"

/-- Embedding of `strings.ContainsAny`. -/
def containsAny (s chars : String) : Bool :=
  s.toList.any (fun c => chars.toList.contains c)

/-- Embedding of `security.ValidateImageName` (part_001 lines 63-101).  Returns `none`
when the name is accepted and `some msg` mirroring the returned error.
Go's `len(imageName)` is the UTF-8 byte length. -/
def ValidateImageName (imageName : String) : Option String :=
  if imageName.utf8ByteSize = 0 then some "image name cannot be empty"
  else if 255 < imageName.utf8ByteSize then some "image name too long"
  else if containsAny imageName suspiciousChars then
    some "image name contains suspicious characters"
  else
    let nameTag := splitOnChar ':' imageName.toList
    let imageParts := nameTag.headD []
    let parts := splitOnChar '/' imageParts
    if 3 < parts.length then some "image name has too many path components"
    else if !parts.all matchesNamePartRegex then some "invalid image name component"
    else if nameTag.length = 2 then
      if !matchesTagRegex (nameTag.getD 1 []) then some "invalid image tag" else none
    else if 2 < nameTag.length then some "invalid image tag format"
    else none

/-! ## Backoff policy (part_002, `calculateBackoffDelay`) -/

/-- One second in `time.Duration` units (nanoseconds). -/
def nanosPerSecond : Int := 1000000000

/-- The fixed ceiling `maxDelay := 30 * time.Second`. -/
def maxBackoffDelay : Int := 30 * nanosPerSecond

/-- Embedding of `calculateBackoffDelay` (part_002 lines 64-78): non-positive attempts
return the base unchanged; otherwise the base is doubled per prior attempt
and capped at 30 seconds.  Float64 arithmetic is modelled exactly (see file
header). -/
def calculateBackoffDelay (attempt : Int) (baseDelay : Int) : Int :=
  if attempt ≤ 0 then baseDelay
  else
    let delay := baseDelay * 2 ^ (attempt - 1).toNat
    if maxBackoffDelay < delay then maxBackoffDelay else delay

/-! ## Retry executor (part_002, `pullImageWithRetry`) -/

/-- Result of the retry loop of `pullImageWithRetry`: `outcome` is
`some (attempt, size)` when an iteration returned success, `lastErr` is the
Go `lastErr` variable on loop exit, `trace` the emitted effects. -/
structure LoopResult where
  outcome : Option (Int × Int)
  lastErr : Option PullError
  trace : List Event
deriving DecidableEq, Repr

/-- The `for attempt := 1; attempt <= config.MaxRetries+1; attempt++` loop of
`pullImageWithRetry` (part_002 lines 115-179), with the remaining iteration
count as structural fuel (`fuel = config.MaxRetries + 2 - attempt` throughout
a run started at attempt 1).  A failed `ImagePull` with retries left sleeps
the backoff delay and continues; on the last attempt it breaks.  A failed
stream drain records its error and continues without sleeping.  A successful
drain returns immediately. -/
def pullLoop (pull : Int → PullOutcome) (cfg : Config) :
    Int → Option PullError → Nat → LoopResult
  | _, lastErr, 0 => ⟨none, lastErr, []⟩
  | attempt, lastErr, fuel + 1 =>
    match pull attempt with
    | .pullFailed cause =>
      let e := some (PullError.attemptFailed attempt cause)
      if attempt ≤ cfg.maxRetries then
        let d := calculateBackoffDelay attempt cfg.retryDelay
        let r := pullLoop pull cfg (attempt + 1) e fuel
        ⟨r.outcome, r.lastErr, Event.pullCall attempt :: Event.sleep d :: r.trace⟩
      else
        ⟨none, e, [Event.pullCall attempt]⟩
    | .readFailed cause =>
      let e := some (PullError.streamReadFailed cfg.showPullDetail cause)
      let r := pullLoop pull cfg (attempt + 1) e fuel
      ⟨r.outcome, r.lastErr, Event.pullCall attempt :: r.trace⟩
    | .pulled size => ⟨some (attempt, size), lastErr, [Event.pullCall attempt]⟩

/-- Embedding of `pullImageWithRetry` (part_002 lines 81-188).  Nil client, nil config and
validation failure short-circuit with `Attempts = 1` and an empty trace;
otherwise the retry loop runs with `MaxRetries + 1` iterations available and
the fall-through return reports `Attempts = MaxRetries + 1` with the last
recorded error. -/
def pullImageWithRetry (client : Option DockerClient) (imageName : String)
    (config : Option Config) : PullResult × List Event :=
  match client with
  | none => (⟨imageName, false, some PullError.clientNil, 0, 1, 0⟩, [])
  | some cli =>
    match config with
    | none => (⟨imageName, false, some PullError.configNil, 0, 1, 0⟩, [])
    | some cfg =>
      match ValidateImageName imageName with
      | some msg => (⟨imageName, false, some (PullError.invalidName msg), 0, 1, 0⟩, [])
      | none =>
        let r := pullLoop (cli imageName) cfg 1 none (cfg.maxRetries + 1).toNat
        match r.outcome with
        | some (attempt, size) => (⟨imageName, true, none, 0, attempt, size⟩, r.trace)
        | none =>
          (⟨imageName, false, r.lastErr, 0, cfg.maxRetries + 1, 0⟩, r.trace)

/-! ## Orchestrator (part_002, `PullImages`) -/

/-- Embedding of `PullImages` (part_002 lines 191-259).  A nil client or config returns the
empty slice.  Otherwise one goroutine per image runs `pullImageWithRetry` and
sends exactly one result; all results are collected (buffered channel of
capacity `len(images)`, closed after `wg.Wait()`).  The embedding returns the
per-image results in input order (completion order is not claimed). -/
def PullImages (client : Option DockerClient) (images : List String)
    (config : Option Config) : List PullResult :=
  match client, config with
  | some cli, some cfg =>
    images.map (fun img => (pullImageWithRetry (some cli) img (some cfg)).1)
  | _, _ => []

/-! ## Metrics reducer (internal/output, `CalculateMetrics`) -/

/-- The accumulation loop of `CalculateMetrics` (part_001 lines 303-311):
(successful, failed, totalRetries, totalPullDuration). -/
def metricsFold : List PullResult → Int × Int × Int × Int
  | [] => (0, 0, 0, 0)
  | r :: rest =>
    let a := metricsFold rest
    (a.1 + (if r.success then 1 else 0),
     a.2.1 + (if r.success then 0 else 1),
     a.2.2.1 + (r.attempts - 1),
     a.2.2.2 + r.duration)

/-- Embedding of `output.CalculateMetrics` (part_001 lines 295-327).  `totalDuration` is
the caller-supplied wall-clock span of the whole run; the average divides the
summed per-result durations by the count with Go's truncating int64 division,
guarded against the empty list. -/
def CalculateMetrics (results : List PullResult) (config : Option Config)
    (totalDuration : Int) : PullMetrics :=
  match config with
  | none => ⟨0, 0, 0, 0, 0, 0, 0⟩
  | some cfg =>
    let a := metricsFold results
    let avgDuration : Int :=
      if 0 < results.length then Int.tdiv a.2.2.2 results.length else 0
    ⟨results.length, a.1, a.2.1, totalDuration, avgDuration, a.2.2.1,
     cfg.maxConcurrency⟩

/-! ## Concurrency gate (part_002 lines 199-243) -/

/-- Phase of one worker goroutine: not yet admitted by the semaphore
(blocked in `semaphore <- struct{}{}`), holding a semaphore slot while
executing `pullImageWithRetry` (with an abstract progress counter), or
terminated with its slot released (the deferred `<-semaphore` runs on every
exit path of the goroutine body). -/
inductive Phase where
  | pending
  | running (step : Nat)
  | done
deriving DecidableEq, Repr

/-- A worker currently holds a semaphore slot. -/
def Phase.isActive : Phase → Bool
  | .running _ => true
  | _ => false

/-- Number of workers holding semaphore slots. -/
def activeCount (s : List Phase) : Nat := s.countP Phase.isActive

/-- Interleaving semantics of the gate with limit `L`: `acquire` admits a
pending worker only while fewer than `L` are running (sending on the full
buffered channel blocks), `progress` is an internal step of an admitted
worker's pull attempts, `release` terminates an admitted worker and frees
its slot atomically (the deferred receive). -/
inductive GateStep (L : Nat) : List Phase → List Phase → Prop where
  | acquire (s : List Phase) (i : Nat) (hi : s[i]? = some Phase.pending)
      (hL : activeCount s < L) : GateStep L s (s.set i (Phase.running 0))
  | progress (s : List Phase) (i k : Nat) (hi : s[i]? = some (Phase.running k)) :
      GateStep L s (s.set i (Phase.running (k + 1)))
  | release (s : List Phase) (i k : Nat) (hi : s[i]? = some (Phase.running k)) :
      GateStep L s (s.set i Phase.done)

/-- States reachable from the start of a run of `n` workers (all spawned
goroutines blocked at the semaphore). -/
def GateReachable (L n : Nat) (s : List Phase) : Prop :=
  Relation.ReflTransGen (GateStep L) (List.replicate n Phase.pending) s

/-- Observation of a `PullOutcome`: the attempt succeeded (the `pulled` arm
of the loop was taken). -/
def isPulled : PullOutcome → Bool
  | .pulled _ => true
  | _ => false

/-- Observation of a `PullOutcome`: `client.ImagePull` itself returned an
error. -/
def isPullFailed : PullOutcome → Bool
  | .pullFailed _ => true
  | _ => false

/-- Size reported by a successful outcome (0 otherwise). -/
def pulledSize : PullOutcome → Int
  | .pulled s => s
  | _ => 0

/-- A configuration with the documented defaults of `LoadConfig`
(containers.yaml, concurrency 5, timeout 5m, 3 retries, 2s base delay),
used to instantiate universally quantified theorems. -/
def sampleConfig : Config :=
  ⟨"containers.yaml", true, false, 5, 300 * nanosPerSecond, 3,
   2 * nanosPerSecond, true, "text"⟩

/-- A valid configuration with one retry, used for concrete counterexamples. -/
def cfg7 : Config := { sampleConfig with maxRetries := 1 }

/-- A valid configuration with two retries and a 5-second base delay, used
for concrete counterexamples. -/
def cfg8 : Config := { sampleConfig with maxRetries := 2, retryDelay := 5 * nanosPerSecond }

/-! ## Helper lemmas -/

/-- Every branch of `pullImageWithRetry` copies the input image name into the
result's `Image` field. -/
theorem pullImage_image (cl : Option DockerClient) (name : String) (cfg : Option Config) :
    ((pullImageWithRetry cl name cfg).1).image = name := by
  unfold pullImageWithRetry
  cases cl with
  | none => rfl
  | some cli =>
    cases cfg with
    | none => rfl
    | some c =>
      cases hv : ValidateImageName name with
      | some msg => simp [hv]
      | none =>
        simp only [hv]
        rcases h : pullLoop (cli name) c 1 none (c.maxRetries + 1).toNat with ⟨o, e, t⟩
        cases o with
        | none => simp
        | some p => rcases p with ⟨a, s⟩; simp

/-- A run in which no attempt ever succeeds leaves the loop without a success
outcome. -/
theorem pullLoop_neverOk (pull : Int → PullOutcome) (cfg : Config)
    (hfail : ∀ a, isPulled (pull a) = false) :
    ∀ (fuel : Nat) (attempt : Int) (lastErr : Option PullError),
      (pullLoop pull cfg attempt lastErr fuel).outcome = none := by
  intro fuel
  induction fuel with
  | zero => intro attempt lastErr; rfl
  | succ n ih =>
    intro attempt lastErr
    unfold pullLoop
    cases hp : pull attempt with
    | pullFailed c =>
      by_cases hle : attempt ≤ cfg.maxRetries
      · simp only [if_pos hle]; exact ih (attempt + 1) _
      · simp only [if_neg hle]
    | readFailed c => exact ih (attempt + 1) _
    | pulled s => have := hfail attempt; rw [hp] at this; simp [isPulled] at this

/-- A success outcome of the loop carries an attempt number between the
starting attempt and the last attempt the fuel allows. -/
theorem pullLoop_outcome_bounds (pull : Int → PullOutcome) (cfg : Config) :
    ∀ (fuel : Nat) (attempt : Int) (lastErr : Option PullError) (a s : Int),
      (pullLoop pull cfg attempt lastErr fuel).outcome = some (a, s) →
      attempt ≤ a ∧ a ≤ attempt + (fuel : Int) - 1 := by
  intro fuel
  induction fuel with
  | zero => intro attempt lastErr a s h; simp [pullLoop] at h
  | succ n ih =>
    intro attempt lastErr a s h
    unfold pullLoop at h
    cases hp : pull attempt with
    | pullFailed c =>
      rw [hp] at h
      by_cases hle : attempt ≤ cfg.maxRetries
      · simp only [if_pos hle] at h
        have := ih (attempt + 1) _ a s h
        omega
      · simp only [if_neg hle] at h
        simp at h
    | readFailed c =>
      rw [hp] at h
      have := ih (attempt + 1) _ a s h
      omega
    | pulled sz =>
      rw [hp] at h
      simp at h
      omega

/-- When `ImagePull` fails with the same cause on every attempt, the error
recorded on loop exit is the final attempt's wrapped error, built at attempt
`maxRetries + 1`. -/
theorem pullLoop_constFail_lastErr (cfg : Config) (c : String) :
    ∀ (fuel : Nat) (attempt : Int) (lastErr : Option PullError),
      1 ≤ fuel → attempt + (fuel : Int) = cfg.maxRetries + 2 →
      (pullLoop (fun _ => PullOutcome.pullFailed c) cfg attempt lastErr fuel).lastErr =
        some (PullError.attemptFailed (cfg.maxRetries + 1) c) := by
  intro fuel
  induction fuel with
  | zero => intro attempt lastErr h1 _; omega
  | succ n ih =>
    intro attempt lastErr _ hinv
    unfold pullLoop
    by_cases hle : attempt ≤ cfg.maxRetries
    · simp only [if_pos hle]
      exact ih (attempt + 1) _ (by omega) (by omega)
    · simp only [if_neg hle]
      have ha : attempt = cfg.maxRetries + 1 := by omega
      rw [ha]

/-- When every attempt up to `maxRetries` fails at `ImagePull` and attempt
`maxRetries + 1` succeeds, the loop returns success at attempt
`maxRetries + 1`. -/
theorem pullLoop_failThenOk (pull : Int → PullOutcome) (cfg : Config) :
    ∀ (fuel : Nat) (attempt : Int) (lastErr : Option PullError),
      attempt + (fuel : Int) = cfg.maxRetries + 2 → 1 ≤ attempt →
      attempt ≤ cfg.maxRetries + 1 →
      (∀ a : Int, attempt ≤ a → a ≤ cfg.maxRetries → isPullFailed (pull a) = true) →
      isPulled (pull (cfg.maxRetries + 1)) = true →
      (pullLoop pull cfg attempt lastErr fuel).outcome =
        some (cfg.maxRetries + 1, pulledSize (pull (cfg.maxRetries + 1))) := by
  intro fuel
  induction fuel with
  | zero => intro attempt lastErr hinv h1 h2 _ _; omega
  | succ n ih =>
    intro attempt lastErr hinv h1 h2 hfail hok
    unfold pullLoop
    by_cases hle : attempt ≤ cfg.maxRetries
    · have hfa := hfail attempt le_rfl hle
      cases hp : pull attempt with
      | pullFailed c =>
        simp only [if_pos hle]
        exact ih (attempt + 1) _ (by omega) (by omega) (by omega)
          (fun a ha hb => hfail a (by omega) hb) hok
      | readFailed c => rw [hp] at hfa; simp [isPullFailed] at hfa
      | pulled s => rw [hp] at hfa; simp [isPullFailed] at hfa
    · have ha : attempt = cfg.maxRetries + 1 := by omega
      cases hp : pull attempt with
      | pullFailed c => rw [← ha] at hok; rw [hp] at hok; simp [isPulled] at hok
      | readFailed c => rw [← ha] at hok; rw [hp] at hok; simp [isPulled] at hok
      | pulled s => rw [ha]; rw [ha] at hp; rw [hp]; simp [pulledSize]

/-- Evaluation of `pullImageWithRetry` past a successful validation: the
result is determined by the retry loop started at attempt 1 with
`maxRetries + 1` iterations available. -/
theorem pullImage_eval (cli : DockerClient) (name : String) (cfg : Config)
    (hv : ValidateImageName name = none) :
    pullImageWithRetry (some cli) name (some cfg) =
      (let r := pullLoop (cli name) cfg 1 none (cfg.maxRetries + 1).toNat
       match r.outcome with
       | some (a, s) => (⟨name, true, none, 0, a, s⟩, r.trace)
       | none => (⟨name, false, r.lastErr, 0, cfg.maxRetries + 1, 0⟩, r.trace)) := by
  unfold pullImageWithRetry
  rw [hv]

/-- The effect trace of a validated pull is the loop's trace, on both the
success and the exhaustion path. -/
theorem pullImage_trace (cli : DockerClient) (name : String) (cfg : Config)
    (hv : ValidateImageName name = none) :
    (pullImageWithRetry (some cli) name (some cfg)).2 =
      (pullLoop (cli name) cfg 1 none (cfg.maxRetries + 1).toNat).trace := by
  rw [pullImage_eval cli name cfg hv]
  rcases pullLoop (cli name) cfg 1 none (cfg.maxRetries + 1).toNat with ⟨o, e, t⟩
  cases o with
  | none => rfl
  | some p => rcases p with ⟨a, s⟩; rfl

/-- Replacing a list element exchanges its contribution to a `countP`. -/
theorem countP_set_eq (f : Phase → Bool) :
    ∀ (s : List Phase) (i : Nat) (p q : Phase), s[i]? = some q →
      ((s.set i p).countP f + (if f q then 1 else 0) =
        s.countP f + (if f p then 1 else 0)) := by
  intro s
  induction s with
  | nil => intro i p q h; simp at h
  | cons x xs ih =>
    intro i p q h
    cases i with
    | zero =>
      rw [List.getElem?_cons_zero] at h
      injection h with h
      subst h
      simp only [List.set, List.countP_cons]
      omega
    | succ n =>
      rw [List.getElem?_cons_succ] at h
      simp only [List.set, List.countP_cons]
      have := ih n p q h
      omega

/-- Every gate transition preserves the bound on slot holders: admission is
guarded by the bound, internal progress does not change it, and termination
releases a slot. -/
theorem gateStep_preserves_bound (L : Nat) (s t : List Phase) (h : GateStep L s t)
    (hs : activeCount s ≤ L) : activeCount t ≤ L := by
  cases h with
  | acquire i hi hL =>
    have := countP_set_eq Phase.isActive s i (Phase.running 0) Phase.pending hi
    simp [Phase.isActive] at this
    unfold activeCount at hL ⊢
    omega
  | progress i k hi =>
    have := countP_set_eq Phase.isActive s i (Phase.running (k + 1)) (Phase.running k) hi
    simp [Phase.isActive] at this
    unfold activeCount at hs ⊢
    omega
  | release i k hi =>
    have := countP_set_eq Phase.isActive s i Phase.done (Phase.running k) hi
    simp [Phase.isActive] at this
    unfold activeCount at hs ⊢
    omega

/-- At the start of a run no worker holds a slot. -/
theorem activeCount_replicate_pending (n : Nat) :
    activeCount (List.replicate n Phase.pending) = 0 := by
  induction n with
  | zero => rfl
  | succ m ih =>
    rw [List.replicate_succ]
    unfold activeCount at ih ⊢
    rw [List.countP_cons]
    simp [Phase.isActive, ih]

/-- Accumulators of the `CalculateMetrics` loop, expressed as independent
folds over the result list. -/
theorem metricsFold_spec (results : List PullResult) :
    (metricsFold results).1 = (results.countP (fun r => r.success) : Int) ∧
    (metricsFold results).2.1 = (results.countP (fun r => !r.success) : Int) ∧
    (metricsFold results).2.2.1 = (results.map (fun r => r.attempts - 1)).sum ∧
    (metricsFold results).2.2.2 = (results.map (fun r => r.duration)).sum := by
  induction results with
  | nil => simp [metricsFold]
  | cons r rest ih =>
    obtain ⟨h1, h2, h3, h4⟩ := ih
    refine ⟨?_, ?_, ?_, ?_⟩
    · show (metricsFold rest).1 + (if r.success then 1 else 0) = _
      rw [h1, List.countP_cons]
      cases hr : r.success <;> simp
    · show (metricsFold rest).2.1 + (if r.success then 0 else 1) = _
      rw [h2, List.countP_cons]
      cases hr : r.success <;> simp
    · show (metricsFold rest).2.2.1 + (r.attempts - 1) = _
      rw [h3, List.map_cons, List.sum_cons]
      ring
    · show (metricsFold rest).2.2.2 + r.duration = _
      rw [h4, List.map_cons, List.sum_cons]
      ring

/-- Successes and failures partition a result list. -/
theorem countP_success_split (results : List PullResult) :
    results.countP (fun r => r.success) + results.countP (fun r => !r.success) =
      results.length := by
  induction results with
  | nil => rfl
  | cons r rest ih =>
    simp only [List.countP_cons, List.length_cons]
    cases hr : r.success <;> simp <;> omega

/-! ## Claims -/

/-- C1: for every task list of size `n` and configured concurrency limit `L`,
at no instant during `PullImages` are more than `L` workers simultaneously
executing their pull attempts: in every state reachable by the semaphore
transition system, at most `L` workers hold slots.  The `release` transition
fires on every termination path (the receive from the semaphore channel is
deferred), so slots are always returned. -/
theorem gate_bounds_active_workers (L n : Nat) (s : List Phase) (h : GateReachable L n s) :
    activeCount s ≤ L := by
  unfold GateReachable at h
  induction h with
  | refl => rw [activeCount_replicate_pending]; exact Nat.zero_le L
  | tail hsteps hstep ih => exact gateStep_preserves_bound L _ _ hstep ih

/-- Witness for C1: with three tasks and limit 2, the state reached by
admitting the first worker satisfies the bound. -/
theorem gate_bounds_active_workers_witness :
    activeCount ((List.replicate 3 Phase.pending).set 0 (Phase.running 0)) ≤ 2 :=
  gate_bounds_active_workers 2 3 _
    (Relation.ReflTransGen.single
      (GateStep.acquire (List.replicate 3 Phase.pending) 0 rfl (by decide)))

/-- C2: for every non-nil client and config and every image list,
`PullImages` returns exactly one `PullResult` per input image — the length
matches and the per-result image names are exactly the inputs.  The client
behavior is universally quantified, so this covers clients whose pulls all
fail with a context-cancellation error (cancellation mid-run). -/
theorem pull_results_one_per_image (cli : DockerClient) (cfg : Config) (images : List String) :
    (PullImages (some cli) images (some cfg)).length = images.length ∧
    (PullImages (some cli) images (some cfg)).map PullResult.image = images := by
  constructor
  · simp [PullImages]
  · unfold PullImages
    rw [List.map_map]
    have h : (PullResult.image ∘ fun img => (pullImageWithRetry (some cli) img (some cfg)).1) =
        fun img : String => img := by
      funext img
      exact pullImage_image (some cli) img (some cfg)
    rw [h]
    simp

/-- C3: with `maxRetries = R ≥ 0` and a valid image name, a pull whose
operation never succeeds yields `Success = false` with `Attempts = R + 1`; a
pull that fails at attempts `1..R` and succeeds at attempt `R + 1` yields
`Success = true` with `Attempts = R + 1`; and every result of
`pullImageWithRetry` (any client, any name) has `Attempts` in `[1, R + 1]`. -/
theorem retry_attempt_counts (cfg : Config) (name : String) (hR : 0 ≤ cfg.maxRetries) :
    (∀ cli : DockerClient, ValidateImageName name = none →
      (((∀ a : Int, isPulled (cli name a) = false) →
        (pullImageWithRetry (some cli) name (some cfg)).1.success = false ∧
        (pullImageWithRetry (some cli) name (some cfg)).1.attempts = cfg.maxRetries + 1) ∧
       ((∀ a : Int, 1 ≤ a → a ≤ cfg.maxRetries → isPullFailed (cli name a) = true) →
        isPulled (cli name (cfg.maxRetries + 1)) = true →
        (pullImageWithRetry (some cli) name (some cfg)).1.success = true ∧
        (pullImageWithRetry (some cli) name (some cfg)).1.attempts = cfg.maxRetries + 1))) ∧
    (∀ cl : Option DockerClient,
      1 ≤ (pullImageWithRetry cl name (some cfg)).1.attempts ∧
      (pullImageWithRetry cl name (some cfg)).1.attempts ≤ cfg.maxRetries + 1) := by
  constructor
  · intro cli hv
    constructor
    · intro hfail
      rw [pullImage_eval cli name cfg hv]
      have ho := pullLoop_neverOk (cli name) cfg hfail (cfg.maxRetries + 1).toNat 1 none
      rcases hr : pullLoop (cli name) cfg 1 none (cfg.maxRetries + 1).toNat with ⟨o, e, t⟩
      rw [hr] at ho
      simp only at ho
      subst ho
      exact ⟨rfl, rfl⟩
    · intro hfail hok
      rw [pullImage_eval cli name cfg hv]
      have ho := pullLoop_failThenOk (cli name) cfg (cfg.maxRetries + 1).toNat 1 none
        (by omega) le_rfl (by omega)
        (fun a ha hb => hfail a ha hb) hok
      rcases hr : pullLoop (cli name) cfg 1 none (cfg.maxRetries + 1).toNat with ⟨o, e, t⟩
      rw [hr] at ho
      simp only at ho
      subst ho
      exact ⟨rfl, rfl⟩
  · intro cl
    cases cl with
    | none => simp [pullImageWithRetry]; omega
    | some cli =>
      cases hv : ValidateImageName name with
      | some msg =>
        unfold pullImageWithRetry
        rw [hv]
        simp only
        omega
      | none =>
        rw [pullImage_eval cli name cfg hv]
        rcases hr : pullLoop (cli name) cfg 1 none (cfg.maxRetries + 1).toNat with ⟨o, e, t⟩
        cases o with
        | none => simp only; omega
        | some p =>
          rcases p with ⟨a, s⟩
          have hb := pullLoop_outcome_bounds (cli name) cfg (cfg.maxRetries + 1).toNat 1 none a s
          rw [hr] at hb
          have := hb rfl
          simp only
          omega

/-- Witness for C3: with the default configuration (3 retries) and an
always-failing client, the result is a failure after 4 attempts. -/
theorem retry_attempt_counts_witness :
    (pullImageWithRetry (some (fun _ _ => PullOutcome.pullFailed "boom")) "nginx"
      (some sampleConfig)).1.success = false ∧
    (pullImageWithRetry (some (fun _ _ => PullOutcome.pullFailed "boom")) "nginx"
      (some sampleConfig)).1.attempts = sampleConfig.maxRetries + 1 :=
  ((retry_attempt_counts sampleConfig "nginx" (by decide)).1
    (fun _ _ => PullOutcome.pullFailed "boom") (by decide)).1 (fun _ => rfl)

/-- C4 counterexample: the 30-second ceiling is applied at attempt 1 as well,
so `calculateBackoffDelay(1, base)` is NOT `base` for every positive base: at
base = 35s it returns 30s. -/
theorem backoff_base_capped_cex :
    calculateBackoffDelay 1 (35 * nanosPerSecond) = 30 * nanosPerSecond ∧
    calculateBackoffDelay 1 (35 * nanosPerSecond) ≠ 35 * nanosPerSecond := by decide

/-- C4 amended: for every attempt `k ≥ 1`, `calculateBackoffDelay k base`
equals `min(base * 2^(k-1), 30s)` — including `k = 1`, where it equals `base`
only when `base ≤ 30s`; the delay is monotonically non-decreasing in `k` for
non-negative base and strictly positive for positive base. -/
theorem backoff_min_formula (k b : Int) (hk : 1 ≤ k) :
    calculateBackoffDelay k b = min (b * 2 ^ (k - 1).toNat) maxBackoffDelay ∧
    (b ≤ maxBackoffDelay → calculateBackoffDelay 1 b = b) ∧
    (∀ k' : Int, k ≤ k' → 0 ≤ b → calculateBackoffDelay k b ≤ calculateBackoffDelay k' b) ∧
    (0 < b → 0 < calculateBackoffDelay k b) := by
  have key : ∀ j : Int, 1 ≤ j →
      calculateBackoffDelay j b = min (b * 2 ^ (j - 1).toNat) maxBackoffDelay := by
    intro j hj
    unfold calculateBackoffDelay
    rw [if_neg (by omega)]
    rcases le_or_lt (b * 2 ^ (j - 1).toNat) maxBackoffDelay with h | h
    · rw [if_neg (not_lt.mpr h), min_eq_left h]
    · rw [if_pos h, min_eq_right (le_of_lt h)]
  refine ⟨key k hk, ?_, ?_, ?_⟩
  · intro hb
    rw [key 1 le_rfl]
    have h0 : ((1 : Int) - 1).toNat = 0 := rfl
    rw [h0, pow_zero, mul_one]
    exact min_eq_left hb
  · intro k' hk' hb
    rw [key k hk, key k' (by omega)]
    refine min_le_min (mul_le_mul_of_nonneg_left ?_ hb) le_rfl
    exact pow_le_pow_right₀ (by norm_num) (Int.toNat_le_toNat (by omega))
  · intro hb
    rw [key k hk]
    refine lt_min (mul_pos hb (pow_pos (by norm_num) _)) (by decide)

/-- Witness for C4 (amended): at attempt 2 with a 2-second base the delay is
the min formula's value. -/
theorem backoff_min_formula_witness :
    (1 : Int) ≤ 2 ∧
    calculateBackoffDelay 2 (2 * nanosPerSecond) =
      min ((2 * nanosPerSecond) * 2 ^ ((2 : Int) - 1).toNat) maxBackoffDelay :=
  ⟨by decide, (backoff_min_formula 2 (2 * nanosPerSecond) (by decide)).1⟩

/-- C5: an image name rejected by `ValidateImageName` makes
`pullImageWithRetry` return a failure with `Attempts = 1` and an empty effect
trace — no `ImagePull` invocation and no backoff sleep ever happens. -/
theorem invalid_name_short_circuits (cli : DockerClient) (cfg : Config) (name msg : String)
    (hv : ValidateImageName name = some msg) :
    pullImageWithRetry (some cli) name (some cfg) =
      (⟨name, false, some (PullError.invalidName msg), 0, 1, 0⟩, []) := by
  unfold pullImageWithRetry
  rw [hv]

/-- Witness for C5: a name containing a semicolon fails validation and
short-circuits even against a client that would succeed. -/
theorem invalid_name_short_circuits_witness :
    ValidateImageName "bad;img" = some "image name contains suspicious characters" ∧
    pullImageWithRetry (some (fun _ _ => PullOutcome.pulled 7)) "bad;img" (some sampleConfig) =
      (⟨"bad;img", false,
        some (PullError.invalidName "image name contains suspicious characters"), 0, 1, 0⟩, []) :=
  ⟨by decide,
   invalid_name_short_circuits (fun _ _ => PullOutcome.pulled 7) sampleConfig "bad;img"
     "image name contains suspicious characters" (by decide)⟩

/-- C6: `CalculateMetrics` partitions by the `Success` flag, sums
`Attempts - 1` for the retries, divides the summed durations by the count
(0 for the empty list, with no division fault), passes the caller-supplied
wall-clock span through, and reports the configured `MaxConcurrency`. -/
theorem calculate_metrics_spec (results : List PullResult) (cfg : Config) (totalDuration : Int) :
    (CalculateMetrics results (some cfg) totalDuration).successCount =
      (results.countP (fun r => r.success) : Int) ∧
    (CalculateMetrics results (some cfg) totalDuration).failureCount =
      (results.countP (fun r => !r.success) : Int) ∧
    (CalculateMetrics results (some cfg) totalDuration).successCount +
      (CalculateMetrics results (some cfg) totalDuration).failureCount =
      (results.length : Int) ∧
    (CalculateMetrics results (some cfg) totalDuration).totalRetries =
      (results.map (fun r => r.attempts - 1)).sum ∧
    (CalculateMetrics results (some cfg) totalDuration).averageDuration =
      (if 0 < results.length then
        Int.tdiv ((results.map (fun r => r.duration)).sum) (results.length : Int) else 0) ∧
    (CalculateMetrics results (some cfg) totalDuration).totalDuration = totalDuration ∧
    (CalculateMetrics results (some cfg) totalDuration).concurrency = cfg.maxConcurrency := by
  obtain ⟨h1, h2, h3, h4⟩ := metricsFold_spec results
  have hs : (CalculateMetrics results (some cfg) totalDuration).successCount =
      (metricsFold results).1 := rfl
  have hf : (CalculateMetrics results (some cfg) totalDuration).failureCount =
      (metricsFold results).2.1 := rfl
  have hr : (CalculateMetrics results (some cfg) totalDuration).totalRetries =
      (metricsFold results).2.2.1 := rfl
  have ha : (CalculateMetrics results (some cfg) totalDuration).averageDuration =
      (if 0 < results.length then
        Int.tdiv ((metricsFold results).2.2.2) (results.length : Int) else 0) := rfl
  refine ⟨?_, ?_, ?_, ?_, ?_, rfl, rfl⟩
  · rw [hs, h1]
  · rw [hf, h2]
  · rw [hs, hf, h1, h2]
    have := countP_success_split results
    omega
  · rw [hr, h3]
  · rw [ha, h4]

/-- C7 counterexample: a task whose every attempt observes cancellation (its
`ImagePull` returns the context error) produces the same exhaustion-shaped
result as a task failing with an ordinary network error — `Success = false`,
`Attempts = maxRetries + 1`, and the same `attemptFailed` error constructor;
no field tags cancellation distinctly from exhaustion. -/
theorem cancellation_shares_exhaustion_tag_cex :
    (pullImageWithRetry (some (fun _ _ => PullOutcome.pullFailed "context canceled"))
        "nginx" (some cfg7)).1 =
      ⟨"nginx", false, some (PullError.attemptFailed 2 "context canceled"), 0, 2, 0⟩ ∧
    (pullImageWithRetry (some (fun _ _ => PullOutcome.pullFailed "connection refused"))
        "nginx" (some cfg7)).1 =
      ⟨"nginx", false, some (PullError.attemptFailed 2 "connection refused"), 0, 2, 0⟩ ∧
    cfg7.maxRetries + 1 = 2 := by decide

/-- C7 amended: when cancellation fires, an unfinished task is not converted
into a distinctly tagged failure; its attempts fail with the context error,
are retried like any transient failure, and it terminates through the
ordinary exhaustion path with `Attempts = maxRetries + 1`, the cancellation
cause surviving only inside the wrapped last-attempt error. -/
theorem cancellation_exhausts_retries (cfg : Config) (name c : String)
    (hR : 0 ≤ cfg.maxRetries) (hv : ValidateImageName name = none) :
    (pullImageWithRetry (some (fun _ _ => PullOutcome.pullFailed c)) name (some cfg)).1 =
      ⟨name, false, some (PullError.attemptFailed (cfg.maxRetries + 1) c), 0,
       cfg.maxRetries + 1, 0⟩ := by
  rw [pullImage_eval _ name cfg hv]
  have ho := pullLoop_neverOk (fun _ => PullOutcome.pullFailed c) cfg (fun _ => rfl)
    (cfg.maxRetries + 1).toNat 1 none
  have he := pullLoop_constFail_lastErr cfg c (cfg.maxRetries + 1).toNat 1 none
    (by omega) (by omega)
  rcases hr : pullLoop (fun _ => PullOutcome.pullFailed c) cfg 1 none
      (cfg.maxRetries + 1).toNat with ⟨o, e, t⟩
  rw [hr] at ho he
  simp only at ho he
  subst ho
  subst he
  rfl

/-- Witness for C7 (amended): a fully cancelled task under the default
configuration reports exhaustion after 4 attempts. -/
theorem cancellation_exhausts_retries_witness :
    (0 : Int) ≤ sampleConfig.maxRetries ∧
    ValidateImageName "nginx" = none ∧
    (pullImageWithRetry (some (fun _ _ => PullOutcome.pullFailed "context canceled"))
        "nginx" (some sampleConfig)).1 =
      ⟨"nginx", false,
       some (PullError.attemptFailed (sampleConfig.maxRetries + 1) "context canceled"), 0,
       sampleConfig.maxRetries + 1, 0⟩ :=
  ⟨by decide, by decide,
   cancellation_exhausts_retries sampleConfig "nginx" "context canceled" (by decide) (by decide)⟩

/-- C8 counterexample: the backoff sleep is a plain `time.Sleep` with no
cancellation channel.  A task whose every attempt observes cancellation
still sleeps the full 5s and 10s backoff delays between its attempts instead
of waking immediately. -/
theorem backoff_sleep_full_despite_cancellation_cex :
    (pullImageWithRetry (some (fun _ _ => PullOutcome.pullFailed "context canceled"))
        "nginx" (some cfg8)).2 =
      [Event.pullCall 1, Event.sleep (5 * nanosPerSecond), Event.pullCall 2,
       Event.sleep (10 * nanosPerSecond), Event.pullCall 3] ∧
    calculateBackoffDelay 1 cfg8.retryDelay = 5 * nanosPerSecond ∧
    calculateBackoffDelay 2 cfg8.retryDelay = 10 * nanosPerSecond := by decide

/-- C8 amended: the sleep between retry attempts is not cancellable — for
every client behavior (cancellation included), a failed first attempt with
retries remaining is followed by a sleep of the full computed backoff delay;
only the `ImagePull` call itself observes cancellation. -/
theorem failed_attempt_sleeps_full_backoff (cli : DockerClient) (cfg : Config) (name c : String)
    (hv : ValidateImageName name = none) (hR : 1 ≤ cfg.maxRetries)
    (h1 : cli name 1 = PullOutcome.pullFailed c) :
    (pullImageWithRetry (some cli) name (some cfg)).2.take 2 =
      [Event.pullCall 1, Event.sleep (calculateBackoffDelay 1 cfg.retryDelay)] := by
  rw [pullImage_trace cli name cfg hv]
  obtain ⟨m, hm⟩ : ∃ m, (cfg.maxRetries + 1).toNat = m + 1 :=
    ⟨(cfg.maxRetries + 1).toNat - 1, by omega⟩
  rw [hm]
  unfold pullLoop
  simp only [h1]
  rw [if_pos (by omega : (1 : Int) ≤ cfg.maxRetries)]
  rfl

/-- Witness for C8 (amended): a cancelled task under `cfg8` sleeps the full
first backoff delay. -/
theorem failed_attempt_sleeps_full_backoff_witness :
    ValidateImageName "nginx" = none ∧
    (1 : Int) ≤ cfg8.maxRetries ∧
    (pullImageWithRetry (some (fun _ _ => PullOutcome.pullFailed "context canceled"))
        "nginx" (some cfg8)).2.take 2 =
      [Event.pullCall 1, Event.sleep (calculateBackoffDelay 1 cfg8.retryDelay)] :=
  ⟨by decide, by decide,
   failed_attempt_sleeps_full_backoff (fun _ _ => PullOutcome.pullFailed "context canceled")
     cfg8 "nginx" "context canceled" (by decide) (by decide) rfl⟩

/-- C9: for non-positive attempt numbers `calculateBackoffDelay` returns the
base delay unchanged, bypassing the 30-second ceiling, so a base above 30s is
returned above the ceiling. -/
theorem backoff_ignores_cap_for_nonpositive_attempt (k b : Int) (hk : k ≤ 0) :
    calculateBackoffDelay k b = b ∧
    (maxBackoffDelay < b → maxBackoffDelay < calculateBackoffDelay k b) := by
  have h1 : calculateBackoffDelay k b = b := by
    unfold calculateBackoffDelay
    rw [if_pos hk]
  exact ⟨h1, fun h => by rw [h1]; exact h⟩

/-- Witness for C9: attempt 0 with a 31-second base returns 31 seconds,
above the 30-second ceiling. -/
theorem backoff_ignores_cap_witness :
    (0 : Int) ≤ 0 ∧ calculateBackoffDelay 0 (31 * nanosPerSecond) = 31 * nanosPerSecond :=
  ⟨le_refl 0, (backoff_ignores_cap_for_nonpositive_attempt 0 (31 * nanosPerSecond) (le_refl 0)).1⟩

/-- C10: a nil client or nil config makes `PullImages` return the empty slice
(length 0, not one result per image), and makes `pullImageWithRetry` return a
single failure with `Attempts = 1` and an empty effect trace — no pull is
ever invoked. -/
theorem nil_client_or_config_behavior (cfg? : Option Config) (cl? : Option DockerClient)
    (cli : DockerClient) (images : List String) (name : String) :
    PullImages none images cfg? = [] ∧
    PullImages cl? images none = [] ∧
    pullImageWithRetry none name cfg? =
      (⟨name, false, some PullError.clientNil, 0, 1, 0⟩, []) ∧
    pullImageWithRetry (some cli) name none =
      (⟨name, false, some PullError.configNil, 0, 1, 0⟩, []) := by
  refine ⟨?_, ?_, rfl, rfl⟩
  · cases cfg? <;> rfl
  · cases cl? <;> rfl

end DockerParallelPull
